import Mathlib

/-!
Shallow embedding of the grammar-builder library (file `grammar.ts`, latest
revision: symbol-keyed rule variants with cardinality support).

The library builds GBNF grammar text from a small combinator API:
rule nodes are a tagged union (sequence / oneOf / ref / range), parts of
sequence and oneOf nodes are either bare string literals or nested rule
nodes, every node optionally carries a cardinality modifier, and a
`Grammar` object accumulates named rules in insertion order before
serializing them with `build`.

TypeScript unions `string | rule` are embedded by adding a `str`
constructor to the `Rule` inductive; the optional symbol-keyed
cardinality field becomes an `Option ruleCardinality` argument of each
node constructor.  Methods that mutate `this.rules` and may throw are
embedded as state transformers returning the new registry together with
an optional thrown error message; `console.warn` emission is modelled as
a returned Boolean flag, and the `process.env.NODE_ENV !== "production"`
gate as an explicit `production : Bool` parameter.
-/

namespace GrammarBuilder

/-- The `ruleCardinality` enum of the source: zeroOrMore, oneOrMore, optional. -/
inductive ruleCardinality where
  | zeroOrMore
  | oneOrMore
  | optional
deriving DecidableEq

/-- The tagged union of rule nodes.  `str` embeds the `string` half of the
source union type `string | rule` used for sequence parts and oneOf options;
the other four constructors mirror `sequenceRuleType`, `oneOfRuleType`,
`refRuleType` and `rangeRuleType`, each with its optional cardinality field. -/
inductive Rule where
  | str (s : String)
  | sequence (parts : List Rule) (card : Option ruleCardinality)
  | oneOf (parts : List Rule) (card : Option ruleCardinality)
  | ref (id : String) (card : Option ruleCardinality)
  | range (pattern : String) (card : Option ruleCardinality)

/-- The `cardinalityChar` IIFE inside `parser`: maps the optional cardinality
field to its glyph, and the absent case to the empty string. -/
def cardinalityChar : Option ruleCardinality → String
  | some ruleCardinality.zeroOrMore => "*"
  | some ruleCardinality.oneOrMore => "+"
  | some ruleCardinality.optional => "?"
  | none => ""

/-- Modelled from the spec: the identifier-casing helper (`kebabCase` from the
lodash dependency) is not part of this repository.  The spec specifies it only
as a deterministic pure casing transform that splits an identifier at word
boundaries and joins the lower-cased words with a fixed separator.  This model
inserts a hyphen before every interior upper-case letter and lowers it, which
reproduces the behaviour on every identifier appearing in the repository
(for example testSequence becomes test-sequence and root stays root). -/
def kebabCase (s : String) : String :=
  s.data.foldl
    (fun acc c =>
      if c.isUpper then
        (if acc.isEmpty then acc else acc ++ "-") ++ (Char.toLower c).toString
      else acc ++ c.toString)
    ""

mutual
/-- The private `parser` method: recursive-descent stringification of one rule
node.  A bare string becomes a double-quoted literal with no further
processing; a sequence joins its parts with spaces and is parenthesized only
when its cardinality glyph is nonempty; a oneOf always parenthesizes the
pipe-joined options and appends the glyph; a ref emits the kebab-cased target
name plus the glyph; a range emits its stored pattern plus the glyph. -/
def parser : Rule → String
  | Rule.str s => "\"" ++ s ++ "\""
  | Rule.sequence parts card =>
      let resultStr := String.intercalate " " (parserList parts)
      let c := cardinalityChar card
      if c.isEmpty then resultStr else "(" ++ resultStr ++ ")" ++ c
  | Rule.oneOf parts card =>
      "(" ++ String.intercalate " | " (parserList parts) ++ ")" ++ cardinalityChar card
  | Rule.ref id card => kebabCase id ++ cardinalityChar card
  | Rule.range pattern card => pattern ++ cardinalityChar card

/-- Pointwise `parser` over a list of parts (the `parts.map(part => this.parser(part))`
expression of the source, written as explicit recursion). -/
def parserList : List Rule → List String
  | [] => []
  | r :: rs => parser r :: parserList rs
end

/-- The `sequence` builder: wraps the given parts in a sequence node with no
cardinality field. -/
def sequence (parts : List Rule) : Rule :=
  Rule.sequence parts none

/-- The `oneOf` builder: wraps the given options in a oneOf node with no
cardinality field. -/
def oneOf (options : List Rule) : Rule :=
  Rule.oneOf options none

/-- The `ref` builder: a reference node holding the target key, with no
cardinality field. -/
def ref (key : String) : Rule :=
  Rule.ref key none

/-- JavaScript `String.prototype.startsWith`, embedded on the character list
of the string. -/
def strStartsWith (s pre : String) : Bool :=
  pre.data.isPrefixOf s.data

/-- JavaScript `String.prototype.endsWith`, embedded on the character list of
the string. -/
def strEndsWith (s post : String) : Bool :=
  post.data.isSuffixOf s.data

/-- The validity test inside the `range` builder: the pattern must start with
an opening square bracket and end with a closing square bracket optionally
followed by exactly one cardinality glyph. -/
def rangeLiteralOk (range : String) : Bool :=
  strStartsWith range "[" &&
    (strEndsWith range "]" || strEndsWith range "]?" || strEndsWith range "]*" ||
      strEndsWith range "]+")

/-- The `range` builder: throws on a malformed range literal (the message
echoes the offending input), otherwise inspects the last character
(`range.slice(-1)` in the source): a glyph is split off into the cardinality
field with the stored pattern shortened by one character, while a plain
closing bracket stores the pattern unchanged with no cardinality.  The source
builds the node as a spread of the original pattern overridden by the
shortened one, which nets to exactly this case split.  The thrown
`ValidationError` is embedded as the error branch of `Except`. -/
def range (range : String) : Except String Rule :=
  if !(rangeLiteralOk range) then
    Except.error ("Range must be in the form of a range literal (e.g. [0-9]), received: " ++ range)
  else
    let lastChar := range.takeRight 1
    if lastChar = "?" then
      Except.ok (Rule.range (range.dropRight 1) (some ruleCardinality.optional))
    else if lastChar = "*" then
      Except.ok (Rule.range (range.dropRight 1) (some ruleCardinality.zeroOrMore))
    else if lastChar = "+" then
      Except.ok (Rule.range (range.dropRight 1) (some ruleCardinality.oneOrMore))
    else
      Except.ok (Rule.range range none)

/-- Reads the optional cardinality field of a node.  A bare string part
carries none (the source combinators are typed over `rule` only, so the
`str` case is unreachable there). -/
def Rule.card : Rule → Option ruleCardinality
  | Rule.str _ => none
  | Rule.sequence _ c => c
  | Rule.oneOf _ c => c
  | Rule.ref _ c => c
  | Rule.range _ c => c

/-- The object-spread update of the cardinality field performed by the three
cardinality combinators: every other field of the node is kept.  On the
unreachable `str` case it is the identity. -/
def Rule.withCard : Rule → Option ruleCardinality → Rule
  | Rule.str s, _ => Rule.str s
  | Rule.sequence p _, c => Rule.sequence p c
  | Rule.oneOf p _, c => Rule.oneOf p c
  | Rule.ref i _, c => Rule.ref i c
  | Rule.range r _, c => Rule.range r c

/-- True on the four proper rule-node constructors, false on a bare string
part (which the source type system never passes to a cardinality
combinator). -/
def Rule.isNode : Rule → Bool
  | Rule.str _ => false
  | _ => true

/-- True exactly on sequence nodes. -/
def Rule.isSequence : Rule → Bool
  | Rule.sequence _ _ => true
  | _ => false

/-- The `oneOrMore` combinator.  The returned Boolean is true when the source
would emit its `console.warn` message: the node already has a cardinality
field, that field differs from `oneOrMore`, and the environment is not
production. -/
def oneOrMore (production : Bool) (rule : Rule) : Rule × Bool :=
  let warned :=
    decide (rule.card ≠ none) &&
    decide (rule.card ≠ some ruleCardinality.oneOrMore) && !production
  (rule.withCard (some ruleCardinality.oneOrMore), warned)

/-- The `zeroOrMore` combinator.  Note that the warning condition of the
source compares the existing field against `oneOrMore` here as well, not
against `zeroOrMore`. -/
def zeroOrMore (production : Bool) (rule : Rule) : Rule × Bool :=
  let warned :=
    decide (rule.card ≠ none) &&
    decide (rule.card ≠ some ruleCardinality.oneOrMore) && !production
  (rule.withCard (some ruleCardinality.zeroOrMore), warned)

/-- The `optional` combinator.  As with `zeroOrMore`, the warning condition
of the source compares the existing field against `oneOrMore`, not against
`optional`. -/
def optional (production : Bool) (rule : Rule) : Rule × Bool :=
  let warned :=
    decide (rule.card ≠ none) &&
    decide (rule.card ≠ some ruleCardinality.oneOrMore) && !production
  (rule.withCard (some ruleCardinality.optional), warned)

/-- The private `rules` object of the `Grammar` class: a string-keyed record
with insertion-order preserved enumeration, embedded as an association
list.  -/
structure Grammar where
  rules : List (String × Rule)

/-- `Object.hasOwn(rules, key)` on the embedded record. -/
def hasOwn (rules : List (String × Rule)) (key : String) : Bool :=
  rules.any (fun p => p.1 = key)

/-- Assignment `rules[key] = value` on the embedded record: an existing key
keeps its position and gets the new value, a fresh key is appended.  This
models JavaScript property creation order only; the enumeration order that
`Object.entries` applies on top of it (array-index keys first, in ascending
numeric order) is modelled separately by `jsEntries` below. -/
def setRule : List (String × Rule) → String → Rule → List (String × Rule)
  | [], key, value => [(key, value)]
  | p :: rest, key, value =>
      if p.1 = key then (key, value) :: rest else p :: setRule rest key value

/-- The `define` method as a state transformer.  It returns the new registry,
the message of the thrown error when one of the two structural guards fires
(in which case the registry is returned unchanged), and whether the
redefinition warning was printed.  The builder callback is embedded as the
`Except` result of evaluating it (it runs only after the guards, so a
failing callback also leaves the registry unchanged). -/
def define (production : Bool) (g : Grammar) (key : String) (ruleFn : Except String Rule) :
    Grammar × Option String × Bool :=
  if key = "root" then
    (g, some "Cannot define a root rule, use root() instead", false)
  else if hasOwn g.rules "root" then
    (g, some "Cannot extend a grammar with a root rule", false)
  else
    let warned := hasOwn g.rules key && !production
    match ruleFn with
    | Except.error e => (g, some e, warned)
    | Except.ok rule => (Grammar.mk (setRule g.rules key rule), none, warned)

/-- The `root` method: stores the built rule under the reserved key. -/
def root (g : Grammar) (rule : Rule) : Grammar :=
  Grammar.mk (setRule g.rules "root" rule)

/-- The numeric value of a digit string (most significant digit first). -/
def digitsToNat (l : List Char) : Nat :=
  l.foldl (fun acc c => acc * 10 + (c.toNat - 48)) 0

/-- Whether a property key is an ECMAScript array index: the canonical
decimal string of an integer below 2 ^ 32 - 1, so nonempty, all digits, no
leading zero except for the single digit zero itself. -/
def isArrayIndexKey (s : String) : Bool :=
  !s.data.isEmpty &&
  s.data.all (fun c => c.isDigit) &&
  (decide (s.data.headD '0' ≠ '0') || decide (s = "0")) &&
  decide (digitsToNat s.data < 4294967295)

/-- Inserts an entry into a list of array-index entries sorted by ascending
numeric key, keeping the sort. -/
def insertByKeyNum (p : String × Rule) : List (String × Rule) → List (String × Rule)
  | [] => [p]
  | q :: rest =>
      if digitsToNat p.1.data < digitsToNat q.1.data then p :: q :: rest
      else q :: insertByKeyNum p rest

/-- Sorts array-index entries by ascending numeric key (insertion sort). -/
def sortIndexEntries : List (String × Rule) → List (String × Rule)
  | [] => []
  | p :: rest => insertByKeyNum p (sortIndexEntries rest)

/-- The enumeration order `Object.entries` applies to the registry record:
per the ECMAScript own-property-keys order, entries whose keys are array
indices come first in ascending numeric order, followed by the remaining
string-keyed entries in property creation order. -/
def jsEntries (rules : List (String × Rule)) : List (String × Rule) :=
  sortIndexEntries (rules.filter (fun p => isArrayIndexKey p.1)) ++
    rules.filter (fun p => !isArrayIndexKey p.1)

/-- The `build` method: throws when no root entry exists, otherwise renders
every registry entry, in the order `Object.entries` enumerates the record,
as one line joining the kebab-cased name, the definition separator and the
rendered node, and joins the lines with single newlines. -/
def build (g : Grammar) : Except String String :=
  if !(hasOwn g.rules "root") then
    Except.error "No root rule defined"
  else
    Except.ok (String.intercalate "\n"
      ((jsEntries g.rules).map (fun p => kebabCase p.1 ++ " ::= " ++ parser p.2)))

/-- On a registry none of whose keys is an array index, the `Object.entries`
enumeration order is exactly property creation order. -/
theorem jsEntries_of_no_index (l : List (String × Rule))
    (h : ∀ p ∈ l, isArrayIndexKey p.1 = false) : jsEntries l = l := by
  have h1 : List.filter (fun p => isArrayIndexKey p.1) l = [] := by
    rw [List.filter_eq_nil_iff]
    intro a ha
    simp [h a ha]
  have h2 : List.filter (fun p => !isArrayIndexKey p.1) l = l := by
    rw [List.filter_eq_self]
    intro a ha
    simp [h a ha]
  simp [jsEntries, h1, h2, sortIndexEntries]

/-- `parserList` distributes over list append. -/
theorem parserList_append (a b : List Rule) :
    parserList (a ++ b) = parserList a ++ parserList b := by
  induction a with
  | nil => rfl
  | cons x xs ih => simp [parserList, ih]

/-- The rendering that the amended claim C2 predicts for a node wrapped by a
cardinality combinator: a sequence node gets one wrapping pair of parentheses
before the glyph, every other node kind gets the glyph appended directly to
its rendering. -/
def glyphApplied (n : Rule) (glyph : String) : String :=
  if n.isSequence then "(" ++ parser n ++ ")" ++ glyph else parser n ++ glyph

/-- Claim C1, evaluation of the code at the failing input: the serializer
emits a string literal between double quotes with no escaping at all, so the
literal a-quote-b renders with its embedded double quote unescaped (the
output is not the backslash-escaped form the claim requires). -/
theorem C1_code_eval :
    parser (sequence [Rule.str "a\"b"]) = "\"a\"b\"" ∧
    parser (sequence [Rule.str "a\"b"]) ≠ "\"a\\\"b\"" := by
  exact ⟨rfl, by decide⟩

/-- Claim C2, counterexample: wrapping a modifier-free ref node with the
zeroOrMore combinator renders the kebab-cased name directly followed by the
glyph, not surrounded by a pair of parentheses as the claim states for every
node kind. -/
theorem C2_counterexample :
    parser ((zeroOrMore false (ref "testRef")).1) ≠
      "(" ++ parser (ref "testRef") ++ ")" ++ "*" := by
  decide

/-- Claim C2 as amended: for every node without a cardinality modifier,
applying a cardinality combinator renders the node followed by the matching
glyph, with one wrapping pair of parentheses added only when the node is a
sequence; oneOf keeps just its own always-present pair, and ref and range
get the bare glyph. -/
theorem C2_amended_glyphs (production : Bool) (n : Rule)
    (hcard : n.card = none) (hnode : n.isNode = true) :
    parser ((zeroOrMore production n).1) = glyphApplied n "*" ∧
    parser ((oneOrMore production n).1) = glyphApplied n "+" ∧
    parser ((optional production n).1) = glyphApplied n "?" := by
  cases n with
  | str s => simp [Rule.isNode] at hnode
  | sequence p c =>
      simp only [Rule.card] at hcard
      subst hcard
      exact ⟨rfl, rfl, rfl⟩
  | oneOf p c =>
      simp only [Rule.card] at hcard
      subst hcard
      refine ⟨?_, ?_, ?_⟩ <;>
        simp [zeroOrMore, oneOrMore, optional, Rule.withCard, glyphApplied, Rule.isSequence,
          parser, cardinalityChar, String.append_empty, String.append_assoc]
  | ref i c =>
      simp only [Rule.card] at hcard
      subst hcard
      refine ⟨?_, ?_, ?_⟩ <;>
        simp [zeroOrMore, oneOrMore, optional, Rule.withCard, glyphApplied, Rule.isSequence,
          parser, cardinalityChar, String.append_empty]
  | range r c =>
      simp only [Rule.card] at hcard
      subst hcard
      refine ⟨?_, ?_, ?_⟩ <;>
        simp [zeroOrMore, oneOrMore, optional, Rule.withCard, glyphApplied, Rule.isSequence,
          parser, cardinalityChar, String.append_empty]

/-- Witness for the amended claim C2 at a concrete modifier-free ref node. -/
theorem C2_amended_glyphs_witness :
    parser ((zeroOrMore false (ref "testRef")).1) = glyphApplied (ref "testRef") "*" ∧
    parser ((oneOrMore false (ref "testRef")).1) = glyphApplied (ref "testRef") "+" ∧
    parser ((optional false (ref "testRef")).1) = glyphApplied (ref "testRef") "?" :=
  C2_amended_glyphs false (ref "testRef") rfl rfl

/-- Claim C3: the range builder fails exactly on patterns that do not start
with an opening bracket or do not end with a closing bracket optionally
followed by one cardinality glyph, echoing the offending input in the error
message; on success a trailing glyph is split off into the cardinality field
and the stored pattern is the bracketed body with the glyph removed, while a
pattern ending in the bare closing bracket is stored unchanged with no
cardinality. -/
theorem C3_range_spec (p : String) :
    ((∃ e, range p = Except.error e) ↔
      ¬(strStartsWith p "[" = true ∧
        (strEndsWith p "]" = true ∨ strEndsWith p "]?" = true ∨
          strEndsWith p "]*" = true ∨ strEndsWith p "]+" = true))) ∧
    (rangeLiteralOk p = false →
      range p = Except.error
        ("Range must be in the form of a range literal (e.g. [0-9]), received: " ++ p)) ∧
    (rangeLiteralOk p = true →
      (p.takeRight 1 = "?" →
        range p = Except.ok (Rule.range (p.dropRight 1) (some ruleCardinality.optional))) ∧
      (p.takeRight 1 = "*" →
        range p = Except.ok (Rule.range (p.dropRight 1) (some ruleCardinality.zeroOrMore))) ∧
      (p.takeRight 1 = "+" →
        range p = Except.ok (Rule.range (p.dropRight 1) (some ruleCardinality.oneOrMore))) ∧
      (p.takeRight 1 ≠ "?" → p.takeRight 1 ≠ "*" → p.takeRight 1 ≠ "+" →
        range p = Except.ok (Rule.range p none))) := by
  have hiff : rangeLiteralOk p = true ↔
      (strStartsWith p "[" = true ∧
        (strEndsWith p "]" = true ∨ strEndsWith p "]?" = true ∨
          strEndsWith p "]*" = true ∨ strEndsWith p "]+" = true)) := by
    simp [rangeLiteralOk, Bool.and_eq_true, Bool.or_eq_true, or_assoc]
  have hok : rangeLiteralOk p = true → ∃ r, range p = Except.ok r := by
    intro hv
    by_cases h1 : p.takeRight 1 = "?"
    · exact ⟨Rule.range (p.dropRight 1) (some ruleCardinality.optional),
        by simp [range, hv, h1]⟩
    · by_cases h2 : p.takeRight 1 = "*"
      · exact ⟨Rule.range (p.dropRight 1) (some ruleCardinality.zeroOrMore),
          by simp [range, hv, h1, h2]⟩
      · by_cases h3 : p.takeRight 1 = "+"
        · exact ⟨Rule.range (p.dropRight 1) (some ruleCardinality.oneOrMore),
            by simp [range, hv, h1, h2, h3]⟩
        · exact ⟨Rule.range p none, by simp [range, hv, h1, h2, h3]⟩
  refine ⟨?_, ?_, ?_⟩
  · constructor
    · rintro ⟨e, he⟩ hprop
      obtain ⟨r, hr⟩ := hok (hiff.mpr hprop)
      rw [hr] at he
      exact Except.noConfusion he
    · intro hprop
      have hv : rangeLiteralOk p = false := by
        cases h : rangeLiteralOk p
        · rfl
        · exact absurd (hiff.mp h) hprop
      exact ⟨"Range must be in the form of a range literal (e.g. [0-9]), received: " ++ p,
        by simp [range, hv]⟩
  · intro hv
    simp [range, hv]
  · intro hv
    refine ⟨?_, ?_, ?_, ?_⟩
    · intro h; simp [range, hv, h]
    · intro h; simp [range, hv, h]
    · intro h; simp [range, hv, h]
    · intro h1 h2 h3; simp [range, hv, h1, h2, h3]

/-- Witness for claim C3: the bracket-free pattern fails with the echoing
message, and a bracketed pattern with a trailing plus succeeds with the glyph
split off into the oneOrMore cardinality. -/
theorem C3_range_spec_witness :
    range "0-9" =
      Except.error "Range must be in the form of a range literal (e.g. [0-9]), received: 0-9" ∧
    range "[0-9]+" =
      Except.ok (Rule.range "[0-9]" (some ruleCardinality.oneOrMore)) :=
  ⟨(C3_range_spec "0-9").2.1 (by decide),
   ((C3_range_spec "[0-9]+").2.2 (by decide)).2.2.1 (by decide)⟩

/-- Claim C4, evaluation of the code at the failing inputs: reapplying the
optional combinator to a node already carrying the optional modifier does
emit the warning (the claim says the identical reapplication is silent),
while applying zeroOrMore to a node carrying the oneOrMore modifier stays
silent (the claim says a differing modifier warns); the modifier itself is
overwritten in both cases without a hard failure. -/
theorem C4_code_eval :
    (optional false (Rule.range "[0-9]" (some ruleCardinality.optional))).2 = true ∧
    (zeroOrMore false (Rule.range "[0-9]" (some ruleCardinality.oneOrMore))).2 = false ∧
    (optional false (Rule.range "[0-9]" (some ruleCardinality.optional))).1 =
      Rule.range "[0-9]" (some ruleCardinality.optional) ∧
    (zeroOrMore false (Rule.range "[0-9]" (some ruleCardinality.oneOrMore))).1 =
      Rule.range "[0-9]" (some ruleCardinality.zeroOrMore) :=
  ⟨rfl, rfl, rfl, rfl⟩

/-- Claim C5: the define method fails with the structural error naming the
reserved key when asked to define root, and with the finalized-registry
structural error when a root entry already exists, and in both failing cases
the registry is returned unchanged with no entry added or modified. -/
theorem C5_define_guards (production : Bool) (g : Grammar) (key : String)
    (ruleFn : Except String Rule) :
    (key = "root" →
      define production g key ruleFn =
        (g, some "Cannot define a root rule, use root() instead", false)) ∧
    (key ≠ "root" → hasOwn g.rules "root" = true →
      define production g key ruleFn =
        (g, some "Cannot extend a grammar with a root rule", false)) := by
  constructor
  · intro h
    simp [define, h]
  · intro h hr
    simp [define, h, hr]

/-- Witness for claim C5 at two concrete registries: defining root on the
empty registry, and defining a fresh name on a finalized registry. -/
theorem C5_define_guards_witness :
    define false (Grammar.mk []) "root" (Except.ok (sequence [])) =
      (Grammar.mk [], some "Cannot define a root rule, use root() instead", false) ∧
    define false (Grammar.mk [("root", sequence [])]) "x" (Except.ok (sequence [])) =
      (Grammar.mk [("root", sequence [])],
        some "Cannot extend a grammar with a root rule", false) :=
  ⟨(C5_define_guards false (Grammar.mk []) "root" (Except.ok (sequence []))).1 rfl,
   (C5_define_guards false (Grammar.mk [("root", sequence [])]) "x"
      (Except.ok (sequence []))).2 (by decide) (by decide)⟩

/-- Claim C6: build fails with the no-root structural error exactly when the
registry has no root entry, producing no partial output in that case (the
error carries only the message), and succeeds otherwise. -/
theorem C6_build_guard (g : Grammar) :
    ((∃ e, build g = Except.error e) ↔ hasOwn g.rules "root" = false) ∧
    (hasOwn g.rules "root" = false → build g = Except.error "No root rule defined") ∧
    (hasOwn g.rules "root" = true → ∃ s, build g = Except.ok s) := by
  cases h : hasOwn g.rules "root" <;> simp [build, h]

/-- Witness for claim C6: the empty registry fails to build with the no-root
message. -/
theorem C6_build_guard_witness :
    build (Grammar.mk []) = Except.error "No root rule defined" :=
  (C6_build_guard (Grammar.mk [])).2.1 rfl

/-- Claim C7, counterexample: define accepts rule names that are array-index
strings, and on such a registry the enumeration order of the record is not
insertion order.  A registry built by defining the rule named a, then the
rule named 1, then root, is rendered by build with the line for 1 first, so
the output is not the insertion-order rendering the claim states for every
registry with a root entry. -/
theorem C7_counterexample :
    build (Grammar.mk
        [("a", sequence [Rule.str "x"]), ("1", sequence [Rule.str "y"]), ("root", ref "a")]) ≠
      Except.ok (String.intercalate "\n"
        (List.map (fun p => kebabCase p.1 ++ " ::= " ++ parser p.2)
          [("a", sequence [Rule.str "x"]), ("1", sequence [Rule.str "y"]), ("root", ref "a")])) := by
  have h1 : build (Grammar.mk
      [("a", sequence [Rule.str "x"]), ("1", sequence [Rule.str "y"]), ("root", ref "a")]) =
      Except.ok "1 ::= \"y\"\na ::= \"x\"\nroot ::= a" := rfl
  rw [h1]
  intro h
  exact absurd (Except.ok.inj h) (by decide)

/-- Claim C7 as amended: on a registry with a root entry, build renders one
line per registry entry, root included, each of the form of the kebab-cased
name, the definition separator and the rendered node, joined by single
newlines with no trailing newline, with entries in the order Object.entries
enumerates the record: array-index names first in ascending numeric order,
then the remaining names in insertion order — which is exactly insertion
order whenever no rule name is an array-index string; and ref nodes are
rendered with the same kebab-casing function used for the entry names. -/
theorem C7_build_lines (g : Grammar) (h : hasOwn g.rules "root" = true) :
    build g = Except.ok (String.intercalate "\n"
      ((jsEntries g.rules).map (fun p => kebabCase p.1 ++ " ::= " ++ parser p.2))) ∧
    ((∀ p ∈ g.rules, isArrayIndexKey p.1 = false) → jsEntries g.rules = g.rules) ∧
    (∀ id card, parser (Rule.ref id card) = kebabCase id ++ cardinalityChar card) := by
  exact ⟨by simp [build, h], jsEntries_of_no_index g.rules, fun id card => rfl⟩

/-- Witness for the amended claim C7 at a concrete two-entry registry with no
array-index names, where the enumeration order is the insertion order. -/
theorem C7_build_lines_witness :
    build (Grammar.mk [("testRef", sequence [Rule.str "a"]), ("root", ref "testRef")]) =
      Except.ok (String.intercalate "\n"
        (List.map (fun p => kebabCase p.1 ++ " ::= " ++ parser p.2)
          (jsEntries [("testRef", sequence [Rule.str "a"]), ("root", ref "testRef")]))) ∧
    jsEntries [("testRef", sequence [Rule.str "a"]), ("root", ref "testRef")] =
      [("testRef", sequence [Rule.str "a"]), ("root", ref "testRef")] :=
  ⟨(C7_build_lines
      (Grammar.mk [("testRef", sequence [Rule.str "a"]), ("root", ref "testRef")])
      (by decide)).1,
   (C7_build_lines
      (Grammar.mk [("testRef", sequence [Rule.str "a"]), ("root", ref "testRef")])
      (by decide)).2.1 (by decide)⟩

/-- Claim C8: a oneOf node always renders as its options joined by the pipe
separator inside one pair of parentheses with the cardinality glyph appended,
whatever its modifier, and a oneOf nested directly inside another oneOf keeps
its own parentheses, producing a doubled pair. -/
theorem C8_oneOf_parens (parts : List Rule) (card : Option ruleCardinality) :
    parser (Rule.oneOf parts card) =
      "(" ++ String.intercalate " | " (parserList parts) ++ ")" ++ cardinalityChar card ∧
    parser (Rule.oneOf [Rule.oneOf parts none] none) =
      "(" ++ parser (Rule.oneOf parts none) ++ ")" := by
  constructor
  · rfl
  · have h : parser (Rule.oneOf [Rule.oneOf parts none] none) =
        "(" ++ parser (Rule.oneOf parts none) ++ ")" ++ "" := rfl
    rw [h, String.append_empty]

/-- Claim C9: a sequence node without a cardinality modifier renders as the
bare space-join of the renderings of its parts, with no parentheses
contributed at any nesting depth; in particular a modifier-free sequence
nested among the parts of another modifier-free sequence contributes exactly
its own parenthesis-free space-join in place. -/
theorem C9_sequence_no_parens (parts xs ys zs : List Rule) :
    parser (Rule.sequence parts none) = String.intercalate " " (parserList parts) ∧
    parser (Rule.sequence (xs ++ Rule.sequence ys none :: zs) none) =
      String.intercalate " "
        (parserList xs ++ parser (Rule.sequence ys none) :: parserList zs) := by
  constructor
  · rfl
  · rw [show parser (Rule.sequence (xs ++ Rule.sequence ys none :: zs) none) =
        String.intercalate " " (parserList (xs ++ Rule.sequence ys none :: zs)) from rfl,
      parserList_append]
    rfl

/-- Claim C10: the zero-part sequence built by the sequence builder with no
arguments renders to the empty string, and a registry whose root is that
node builds to a single line consisting of the root name, the separator and
its trailing space, with nothing after it. -/
theorem C10_empty_sequence :
    parser (sequence []) = "" ∧
    build (root (Grammar.mk []) (sequence [])) = Except.ok "root ::= " :=
  ⟨rfl, rfl⟩

end GrammarBuilder
